import Mathlib

/-!
Shallow embedding of `vendor/github.com/joyent/triton-go/authentication/ssh_agent_signer.go`.

Bytes are modelled as `Nat` (values < 256 in practice), Go `[]byte` as `List Nat`,
Go `string` as Lean `String` (the repository only ever handles ASCII data here),
Go `error` as the error message `String`, and a fallible Go call as `Except String α`.

The SSH agent (`golang.org/x/crypto/ssh/agent`) is an external collaborator: it is
modelled as a record of its two consumed operations, `List()` and `Sign(key, payload)`.
The digest cores of Go's `crypto/md5` and `crypto/sha256` are external library code,
modelled as function parameters (`md5f`, `shaf`); the renderings the source applies to
them (`fmt.Sprintf "%x"` i.e. lowercase hex, and `base64.RawStdEncoding` /
`base64.StdEncoding`) are embedded concretely below.
-/

/-- Lowercase hex digit, as produced by Go's `%x` verb: 0-9 then a-f. -/
def hexDigit (n : Nat) : Char :=
  if n < 10 then Char.ofNat (48 + n) else Char.ofNat (87 + n)

/-- Hex rendering of a byte list, two lowercase digits per byte (Go `fmt.Sprintf("%x", b)`). -/
def hexChars : List Nat → List Char
  | [] => []
  | b :: rest => hexDigit (b / 16 % 16) :: hexDigit (b % 16) :: hexChars rest

/-- String form of `hexChars`. -/
def hexEncode (bs : List Nat) : String :=
  String.mk (hexChars bs)

/-- The standard base64 alphabet used by Go's `encoding/base64` standard encodings. -/
def base64Alphabet : List Char :=
  "ABCDEFGHIJKLMNOPQRSTUVWXYZabcdefghijklmnopqrstuvwxyz0123456789+/".data

/-- One base64 alphabet character. -/
def b64Char (n : Nat) : Char :=
  base64Alphabet.getD n 'A'

/-- Base64 of a byte list without padding (the character stream shared by
`base64.StdEncoding` and `base64.RawStdEncoding`). -/
def base64Core : List Nat → List Char
  | [] => []
  | [a] => [b64Char (a / 4 % 64), b64Char (a % 4 * 16)]
  | [a, b] => [b64Char (a / 4 % 64), b64Char (a % 4 * 16 + b / 16), b64Char (b % 16 * 4)]
  | a :: b :: c :: rest =>
      b64Char (a / 4 % 64) :: b64Char (a % 4 * 16 + b / 16) ::
      b64Char (b % 16 * 4 + c / 64) :: b64Char (c % 64) :: base64Core rest

/-- Go `base64.RawStdEncoding.EncodeToString`: standard alphabet, no padding. -/
def base64RawStd (bs : List Nat) : String :=
  String.mk (base64Core bs)

/-- Go `base64.StdEncoding.EncodeToString`: standard alphabet with `=` padding. -/
def base64Std (bs : List Nat) : String :=
  String.mk (base64Core bs ++
    (match bs.length % 3 with
     | 1 => ['=', '=']
     | 2 => ['=']
     | _ => []))

/-- Boolean list-level "is a leading segment of" check, modelling Go `strings.HasPrefix`. -/
def isPre : List Char → List Char → Bool
  | [], _ => true
  | _ :: _, [] => false
  | a :: as, b :: bs => a = b && isPre as bs

/-- List-level model of Go `strings.TrimPrefix(s, pre)`. -/
def trimPreL (pre s : List Char) : List Char :=
  if isPre pre s then s.drop pre.length else s

/-- Model of Go `strings.TrimPrefix(s, pre)` on strings. -/
def trimPre (pre s : String) : String :=
  String.mk (trimPreL pre.data s.data)

/-- List-level model of Go `strings.Replace(s, ":", "", -1)`: delete every colon. -/
def removeColonsL (s : List Char) : List Char :=
  s.filter (fun c => !(c = ':'))

/-- Model of Go `strings.Replace(s, ":", "", -1)` on strings. -/
def removeColons (s : String) : String :=
  String.mk (removeColonsL s.data)

/-- The fingerprint normalization performed at the head of `MatchKey`: strip a
leading `"MD5:"`, then a leading `"SHA256:"`, then remove all colons. -/
def stripFingerprint (f : String) : String :=
  removeColons (trimPre "SHA256:" (trimPre "MD5:" f))

/-- An agent-reported public key, identified by its canonical wire encoding
(the bytes Go's `key.Marshal()` returns). -/
structure PublicKey where
  marshal : List Nat
deriving DecidableEq, Repr

/-- The agent's raw signature reply: a format tag and an opaque blob
(`ssh.Signature` as consumed by this file). -/
structure SSHSignature where
  format : String
  blob : List Nat
deriving DecidableEq, Repr

/-- The SSH agent, modelled by the two operations the source consumes:
`List()` and `Sign(key, payload)`. A fixed `Agent` value is a deterministic agent. -/
structure Agent where
  listResult : Except String (List PublicKey)
  signFn : PublicKey → String → Except String SSHSignature

/-- The `SSHAgentSigner` struct, fields as in the source. -/
structure SSHAgentSigner where
  formattedKeyFingerprint : String
  keyFingerprint : String
  algorithm : String
  accountName : String
  keyIdentifier : String
  agent : Agent
  key : PublicKey

/-- `ErrUnsetEnvVar` from the source (modelled by its message). -/
def ErrUnsetEnvVar : String := "SSH_AUTH_SOCK is not set"

/-- `SSHAgentSigner.MatchKey`. The receiver's two used fields (`agent`,
`keyFingerprint`) are passed directly; `md5f`/`shaf` are the external digest cores. -/
def MatchKey (md5f shaf : List Nat → List Nat) (ag : Agent) (fingerprint : String) :
    Except String PublicKey :=
  match ag.listResult with
  | .error e => .error ("Error listing keys in SSH Agent: " ++ e)
  | .ok keys =>
    let s1 := trimPre "MD5:" fingerprint
    let s2 := trimPre "SHA256:" s1
    let keyFingerprintStripped := removeColons s2
    let matchingKey := keys.foldl (fun acc key =>
      let finalizedMD5 := hexEncode (md5f key.marshal)
      let finalizedSHA256 := base64RawStd (shaf key.marshal)
      if (keyFingerprintStripped == finalizedMD5 || keyFingerprintStripped == finalizedSHA256)
      then some key else acc) none
    match matchingKey with
    | none => .error ("No key in the SSH Agent matches fingerprint: " ++ fingerprint)
    | some k => .ok k

/-- The per-candidate match test of `MatchKey`'s loop, with the normalized target
`target`: the candidate matches when its MD5-hex or SHA256-base64 digest equals it. -/
def candMatches (md5f shaf : List Nat → List Nat) (target : String) (key : PublicKey) : Bool :=
  target == hexEncode (md5f key.marshal) || target == base64RawStd (shaf key.marshal)

/-- Modelled from the spec: `keyFormatToKeyType` lives in a triton-go file that is not
under src/. §4.3: the agent's format tag "must first be mapped to a key-type family:
inputs identifying an RSA signature map to family `rsa`; inputs identifying an
ECDSA/elliptic-curve signature map to family `ecdsa`"; the ed25519 tag (spec §8's
example of an unrecognized tag) maps to its own family, which the dispatch rejects. -/
def keyFormatToKeyType (keyFormat : String) : Except String String :=
  if keyFormat == "ssh-rsa" then .ok "rsa"
  else if keyFormat == "ssh-ed25519" then .ok "ed25519"
  else if isPre "ecdsa-sha2-".data keyFormat.data then .ok "ecdsa"
  else .error ("Unknown key format: " ++ keyFormat)

/-- Modelled from the spec: the `httpAuthSignature` interface is declared in a
triton-go file not under src/. §3 "Canonical Signature": a normalized signature value
exposing a textual representation (`text`, the Go `String()`) and a signature-type
label (`signatureType`, the Go `SignatureType()`). -/
structure httpAuthSignature where
  signatureType : String
  text : String
deriving DecidableEq, Repr

/-- Modelled from the spec: `newRSASignature` is in a triton-go file not under src/.
§4.3 RSA family: "the blob is the raw signature bytes; decode into a structure exposing
a base64-encoded textual signature and a fixed type label (e.g., `rsa-sha256`)". -/
def newRSASignature (signatureBlob : List Nat) : Except String httpAuthSignature :=
  .ok { signatureType := "rsa-sha256", text := base64Std signatureBlob }

/-- Read a big-endian 4-byte length from the head of a byte list (SSH wire format). -/
def parseSshUint32 : List Nat → Option (Nat × List Nat)
  | a :: b :: c :: d :: rest => some (((a * 256 + b) * 256 + c) * 256 + d, rest)
  | _ => none

/-- Read one SSH length-prefixed field (as used for the mpint components r, s). -/
def parseSshField (bs : List Nat) : Option (List Nat × List Nat) :=
  match parseSshUint32 bs with
  | none => none
  | some (n, rest) => if n ≤ rest.length then some (rest.take n, rest.drop n) else none

/-- Modelled from the spec: §4.3 ECDSA labels "encode the curve's hash size
(e.g., `ecdsa-sha256`, `ecdsa-sha384`, `ecdsa-sha512` depending on key size)";
the size is read off the big-integer component's byte width. -/
def ecdsaLabel (rLen : Nat) : String :=
  if rLen ≤ 32 then "ecdsa-sha256"
  else if rLen ≤ 48 then "ecdsa-sha384"
  else "ecdsa-sha512"

/-- Modelled from the spec: `newECDSASignature` is in a triton-go file not under src/.
§4.3 ECDSA family: "the blob is a structured encoding containing two big-integer
components (r, s) plus curve-derived bit width; decode by parsing the structured
encoding, fails with `SignatureDecodeError` if parsing fails, and derive a type label
that encodes the curve's hash size". -/
def newECDSASignature (signatureBlob : List Nat) : Except String httpAuthSignature :=
  match parseSshField signatureBlob with
  | none => .error "ssh: signature did not parse"
  | some (r, rest) =>
    match parseSshField rest with
    | none => .error "ssh: signature did not parse"
    | some (_, rest2) =>
      if rest2.isEmpty then
        .ok { signatureType := ecdsaLabel r.length, text := base64Std signatureBlob }
      else .error "ssh: signature did not parse"

/-- Modelled from the spec: the `authorizationHeaderFormat` constant is in a triton-go
file not under src/. §6 gives the produced header value bit-exactly:
`keyId="<keyIdentifier>",algorithm="<algorithmLabel>",headers="date",signature="<signatureText>"`. -/
def authorizationHeaderFormat (keyId algorithm headers signature : String) : String :=
  "keyId=\"" ++ keyId ++ "\",algorithm=\"" ++ algorithm ++ "\",headers=\"" ++ headers ++
    "\",signature=\"" ++ signature ++ "\""

/-- Insert a colon between every pair of characters ("ab:cd:ef"). -/
def colonifyL : List Char → List Char
  | [] => []
  | [a] => [a]
  | [a, b] => [a, b]
  | a :: b :: c :: rest => a :: b :: ':' :: colonifyL (c :: rest)

/-- Modelled from the spec: `formatPublicKeyFingerprint` is in a triton-go file not
under src/. §4.4 step 4 / §6: the produced fingerprint is "always `SHA256:` prefix +
base64 digest rendered with a colon inserted between every pair of characters"
(the colon grouping is the display form requested by the `display` flag). -/
def formatPublicKeyFingerprint (shaf : List Nat → List Nat) (key : PublicKey)
    (display : Bool) : String :=
  let digest := base64RawStd (shaf key.marshal)
  if display then "SHA256:" ++ String.mk (colonifyL digest.data)
  else "SHA256:" ++ digest

/-- `SSHAgentSigner.Sign`. `fmt.Sprintf("%s: %s", headerName, dateHeader)` with
`headerName = "date"` is the byte string `"date: " + dateHeader`. -/
def SSHAgentSigner.Sign (s : SSHAgentSigner) (dateHeader : String) : Except String String :=
  match s.agent.signFn s.key ("date: " ++ dateHeader) with
  | .error e => .error ("Error signing date header: " ++ e)
  | .ok signature =>
    match keyFormatToKeyType signature.format with
    | .error e => .error ("Error reading signature: " ++ e)
    | .ok keyFormat =>
      if keyFormat == "rsa" then
        match newRSASignature signature.blob with
        | .error e => .error ("Error reading signature: " ++ e)
        | .ok authSignature =>
          .ok (authorizationHeaderFormat s.keyIdentifier authSignature.signatureType
            "date" authSignature.text)
      else if keyFormat == "ecdsa" then
        match newECDSASignature signature.blob with
        | .error e => .error ("Error reading signature: " ++ e)
        | .ok authSignature =>
          .ok (authorizationHeaderFormat s.keyIdentifier authSignature.signatureType
            "date" authSignature.text)
      else .error ("Unsupported algorithm from SSH agent: " ++ signature.format)

/-- `SSHAgentSigner.SignRaw`: the same pipeline without header formatting,
returning the `(text, algorithmLabel)` pair. -/
def SSHAgentSigner.SignRaw (s : SSHAgentSigner) (toSign : String) :
    Except String (String × String) :=
  match s.agent.signFn s.key toSign with
  | .error e => .error ("Error signing string: " ++ e)
  | .ok signature =>
    match keyFormatToKeyType signature.format with
    | .error e => .error ("Error reading signature: " ++ e)
    | .ok keyFormat =>
      if keyFormat == "rsa" then
        match newRSASignature signature.blob with
        | .error e => .error ("Error reading signature: " ++ e)
        | .ok authSignature => .ok (authSignature.text, authSignature.signatureType)
      else if keyFormat == "ecdsa" then
        match newECDSASignature signature.blob with
        | .error e => .error ("Error reading signature: " ++ e)
        | .ok authSignature => .ok (authSignature.text, authSignature.signatureType)
      else .error ("Unsupported algorithm from SSH agent: " ++ signature.format)

/-- `SSHAgentSigner.KeyFingerprint`. -/
def SSHAgentSigner.KeyFingerprint (s : SSHAgentSigner) : String :=
  s.formattedKeyFingerprint

/-- `SSHAgentSigner.DefaultAlgorithm`. -/
def SSHAgentSigner.DefaultAlgorithm (s : SSHAgentSigner) : String :=
  s.algorithm

/-- `NewSSHAgentSigner`. The process environment's `SSH_AUTH_SOCK` entry is the
`env` parameter (`os.LookupEnv`); `net.Dial("unix", addr)` followed by
`agent.NewClient(conn)` is the external `dial` parameter. The struct literal in the
source leaves `formattedKeyFingerprint`, `algorithm` and `keyIdentifier` at the Go
zero value `""` until assigned. -/
def NewSSHAgentSigner (env : Option String) (dial : String → Except String Agent)
    (md5f shaf : List Nat → List Nat) (keyFingerprint accountName : String) :
    Except String SSHAgentSigner :=
  match env with
  | none => .error ErrUnsetEnvVar
  | some sshAgentAddress =>
    match dial sshAgentAddress with
    | .error e => .error ("Error dialing SSH agent: " ++ e)
    | .ok ag =>
      match MatchKey md5f shaf ag keyFingerprint with
      | .error e => .error e
      | .ok matchingKey =>
        let formatted := formatPublicKeyFingerprint shaf matchingKey true
        let signer : SSHAgentSigner :=
          { formattedKeyFingerprint := formatted
            keyFingerprint := keyFingerprint
            algorithm := ""
            accountName := accountName
            keyIdentifier := "/" ++ accountName ++ "/keys/" ++ formatted
            agent := ag
            key := matchingKey }
        match signer.SignRaw "HelloWorld" with
        | .error e => .error ("Cannot sign using ssh agent: " ++ e)
        | .ok (_, algorithm) => .ok { signer with algorithm := algorithm }

/-- §4.3's `Normalize(format, blob) -> (text, algorithmLabel)`, stated from the spec's
words for the refinement claims: family dispatch on the mapped format tag, RSA and
ECDSA decoding, and rejection of any other family reporting the original tag. -/
def NormalizeSpec (sig : SSHSignature) : Except String (String × String) :=
  match keyFormatToKeyType sig.format with
  | .error e => .error e
  | .ok fam =>
    if fam == "rsa" then
      match newRSASignature sig.blob with
      | .error e => .error e
      | .ok a => .ok (a.text, a.signatureType)
    else if fam == "ecdsa" then
      match newECDSASignature sig.blob with
      | .error e => .error e
      | .ok a => .ok (a.text, a.signatureType)
    else .error ("Unsupported algorithm from SSH agent: " ++ sig.format)

/-- State-passing embedding of the `Sign` method: the Go receiver is `*SSHAgentSigner`,
so a field assignment in the body would surface as a changed second component; the
body contains none, and the returned receiver is threaded through unchanged. -/
def SSHAgentSigner.SignSt (s : SSHAgentSigner) (dateHeader : String) :
    Except String String × SSHAgentSigner :=
  match s.agent.signFn s.key ("date: " ++ dateHeader) with
  | .error e => (.error ("Error signing date header: " ++ e), s)
  | .ok signature =>
    match keyFormatToKeyType signature.format with
    | .error e => (.error ("Error reading signature: " ++ e), s)
    | .ok keyFormat =>
      if keyFormat == "rsa" then
        match newRSASignature signature.blob with
        | .error e => (.error ("Error reading signature: " ++ e), s)
        | .ok authSignature =>
          (.ok (authorizationHeaderFormat s.keyIdentifier authSignature.signatureType
            "date" authSignature.text), s)
      else if keyFormat == "ecdsa" then
        match newECDSASignature signature.blob with
        | .error e => (.error ("Error reading signature: " ++ e), s)
        | .ok authSignature =>
          (.ok (authorizationHeaderFormat s.keyIdentifier authSignature.signatureType
            "date" authSignature.text), s)
      else (.error ("Unsupported algorithm from SSH agent: " ++ signature.format), s)

/-- State-passing embedding of the `SignRaw` method (no field assignment in the body). -/
def SSHAgentSigner.SignRawSt (s : SSHAgentSigner) (toSign : String) :
    Except String (String × String) × SSHAgentSigner :=
  match s.agent.signFn s.key toSign with
  | .error e => (.error ("Error signing string: " ++ e), s)
  | .ok signature =>
    match keyFormatToKeyType signature.format with
    | .error e => (.error ("Error reading signature: " ++ e), s)
    | .ok keyFormat =>
      if keyFormat == "rsa" then
        match newRSASignature signature.blob with
        | .error e => (.error ("Error reading signature: " ++ e), s)
        | .ok authSignature => (.ok (authSignature.text, authSignature.signatureType), s)
      else if keyFormat == "ecdsa" then
        match newECDSASignature signature.blob with
        | .error e => (.error ("Error reading signature: " ++ e), s)
        | .ok authSignature => (.ok (authSignature.text, authSignature.signatureType), s)
      else (.error ("Unsupported algorithm from SSH agent: " ++ signature.format), s)

/-- State-passing embedding of the `KeyFingerprint` getter. -/
def SSHAgentSigner.KeyFingerprintSt (s : SSHAgentSigner) : String × SSHAgentSigner :=
  (s.formattedKeyFingerprint, s)

/-- State-passing embedding of the `DefaultAlgorithm` getter. -/
def SSHAgentSigner.DefaultAlgorithmSt (s : SSHAgentSigner) : String × SSHAgentSigner :=
  (s.algorithm, s)

/-- The colon-grouped display form of a digest string. -/
def colonize (s : String) : String :=
  String.mk (colonifyL s.data)

/-- The supported input forms of one key's fingerprint, given its bare MD5-hex digest
`m` and its bare SHA256-base64 digest `sB`: bare, colon-grouped, and prefixed. -/
def fingerprintForms (m sB : String) : List String :=
  [m, colonize m, "MD5:" ++ m, "MD5:" ++ colonize m,
   sB, colonize sB, "SHA256:" ++ sB, "SHA256:" ++ colonize sB]

/-- The sixteen lowercase hex characters, as a character list. -/
def hexAlphabet : List Char := "0123456789abcdef".data

section Lemmas

/-- A successful boolean leading-segment check pins down the scanned characters. -/
theorem isPre_get? : ∀ (pre s : List Char), isPre pre s = true →
    ∀ i c, pre.get? i = some c → s.get? i = some c
  | [], _, _, i, c => by intro h; simp [List.get?] at h
  | _ :: _, [], h, _, _ => by simp [isPre] at h
  | a :: as, b :: bs, h, i, c => by
    rw [isPre, Bool.and_eq_true, decide_eq_true_eq] at h
    match i with
    | 0 => intro hc; simp [List.get?] at hc ⊢; rw [← h.1, hc]
    | Nat.succ j => exact fun hc => isPre_get? as bs h.2 j c hc

/-- Refute a leading-segment check from one mismatching position. -/
theorem not_isPre_of_get? (pre s : List Char) (i : Nat) (c1 c2 : Char)
    (h1 : pre.get? i = some c1) (h2 : s.get? i = some c2) (h3 : c1 ≠ c2) :
    isPre pre s = false := by
  cases h : isPre pre s
  · rfl
  · exact absurd (Option.some.inj ((isPre_get? pre s h i c1 h1).symm.trans h2)) h3

/-- Refute a leading-segment check when the pattern has a colon where the scanned
string has none at all. -/
theorem not_isPre_of_colon (pre s : List Char) (i : Nat)
    (h1 : pre.get? i = some ':') (h2 : ':' ∉ s) : isPre pre s = false := by
  cases h : isPre pre s
  · rfl
  · exact absurd (List.get?_mem (isPre_get? pre s h i ':' h1)) h2

/-- A list is a leading segment of itself followed by anything. -/
theorem isPre_append : ∀ (p x : List Char), isPre p (p ++ x) = true
  | [], _ => rfl
  | a :: as, x => by rw [List.cons_append, isPre, isPre_append as x]; simp

/-- Trimming a present leading segment drops exactly it. -/
theorem trimPreL_append (p x : List Char) : trimPreL p (p ++ x) = x := by
  rw [trimPreL, if_pos (isPre_append p x), List.drop_left]

/-- Trimming an absent leading segment is the identity. -/
theorem trimPreL_of_not (p x : List Char) (h : isPre p x = false) : trimPreL p x = x := by
  rw [trimPreL, h]; simp

/-- Every character that `hexChars` emits is a lowercase hex character. -/
theorem hexChars_subset : ∀ (bs : List Nat), ∀ c ∈ hexChars bs, c ∈ hexAlphabet
  | [] => by simp [hexChars]
  | b :: rest => by
    have hdig : ∀ n < 16, hexDigit n ∈ hexAlphabet := by decide
    intro c hc
    rw [hexChars, List.mem_cons, List.mem_cons] at hc
    rcases hc with hc | hc | hc
    · exact hc ▸ hdig _ (Nat.mod_lt _ (by norm_num))
    · exact hc ▸ hdig _ (Nat.mod_lt _ (by norm_num))
    · exact hexChars_subset rest c hc

/-- Every base64 alphabet lookup lands in the alphabet. -/
theorem b64Char_mem (n : Nat) : b64Char n ∈ base64Alphabet := by
  rw [b64Char, List.getD]
  rcases h : base64Alphabet.get? n with _ | c
  · simp; decide
  · simpa using List.get?_mem h

/-- Every character that `base64Core` emits is a base64 alphabet character. -/
theorem base64Core_subset : ∀ (bs : List Nat), ∀ c ∈ base64Core bs, c ∈ base64Alphabet
  | [] => by simp [base64Core]
  | [a] => by
    intro c hc
    rw [base64Core, List.mem_cons, List.mem_cons] at hc
    rcases hc with hc | hc | hc
    · exact hc ▸ b64Char_mem _
    · exact hc ▸ b64Char_mem _
    · simp at hc
  | [a, b] => by
    intro c hc
    rw [base64Core, List.mem_cons, List.mem_cons, List.mem_cons] at hc
    rcases hc with hc | hc | hc | hc
    · exact hc ▸ b64Char_mem _
    · exact hc ▸ b64Char_mem _
    · exact hc ▸ b64Char_mem _
    · simp at hc
  | a :: b :: c :: rest => by
    intro d hd
    rw [base64Core, List.mem_cons, List.mem_cons, List.mem_cons, List.mem_cons] at hd
    rcases hd with hd | hd | hd | hd | hd
    · exact hd ▸ b64Char_mem _
    · exact hd ▸ b64Char_mem _
    · exact hd ▸ b64Char_mem _
    · exact hd ▸ b64Char_mem _
    · exact base64Core_subset rest d hd

/-- Hex digest strings contain no colon. -/
theorem hexChars_no_colon (bs : List Nat) : ':' ∉ hexChars bs := fun h => by
  have := hexChars_subset bs ':' h
  rw [hexAlphabet] at this
  simp at this

/-- Base64 digest strings contain no colon. -/
theorem base64Core_no_colon (bs : List Nat) : ':' ∉ base64Core bs := fun h => by
  have := base64Core_subset bs ':' h
  rw [base64Alphabet] at this
  simp at this

/-- The third character of a colon-grouped string, when present, is a colon. -/
theorem colonify_get?_two : ∀ (x : List Char),
    (colonifyL x).get? 2 = none ∨ (colonifyL x).get? 2 = some ':'
  | [] => Or.inl rfl
  | [_] => Or.inl rfl
  | [_, _] => Or.inl rfl
  | _ :: _ :: _ :: _ => Or.inr rfl

/-- Deleting colons after colon-grouping is deleting colons. -/
theorem removeColonsL_colonify : ∀ (x : List Char),
    removeColonsL (colonifyL x) = removeColonsL x
  | [] => rfl
  | [_] => rfl
  | [_, _] => rfl
  | a :: b :: c :: t => by
    have h3 := removeColonsL_colonify (c :: t)
    simp only [removeColonsL, colonifyL] at h3 ⊢
    simp only [List.filter_cons, h3]
    split_ifs <;> simp_all

/-- Deleting colons from a colon-free string is the identity. -/
theorem removeColonsL_of_no_colon (x : List Char) (h : ':' ∉ x) : removeColonsL x = x := by
  rw [removeColonsL, List.filter_eq_self]
  intro a ha
  simp only [Bool.not_eq_eq_eq_not, Bool.not_true, decide_eq_false_iff_not]
  exact fun hc => h (hc ▸ ha)

/-- Refute a leading-segment check at position 2 against a colon-grouped string. -/
theorem not_isPre_colonify (pre : List Char) (x : List Char) (c : Char)
    (hp : pre.get? 2 = some c) (hc : c ≠ ':') : isPre pre (colonifyL x) = false := by
  cases h : isPre pre (colonifyL x)
  · rfl
  · have := isPre_get? pre (colonifyL x) h 2 c hp
    rcases colonify_get?_two x with h2 | h2
    · rw [this] at h2; cases h2
    · rw [this] at h2; exact absurd (Option.some.inj h2) hc

/-- The character-list view of `stripFingerprint`. -/
theorem stripFingerprint_data (f : String) :
    (stripFingerprint f).data =
      removeColonsL (trimPreL "SHA256:".data (trimPreL "MD5:".data f.data)) := rfl

/-- Normalizing a colon-free digest string that carries no recognized algorithm
tag of its own leaves it unchanged. -/
theorem stripFingerprint_colonFree (x : String) (hx : ':' ∉ x.data) :
    stripFingerprint x = x := by
  apply String.ext
  rw [stripFingerprint_data,
    trimPreL_of_not "MD5:".data x.data (not_isPre_of_colon "MD5:".data x.data 3 rfl hx),
    trimPreL_of_not "SHA256:".data x.data (not_isPre_of_colon "SHA256:".data x.data 6 rfl hx),
    removeColonsL_of_no_colon _ hx]

/-- Normalizing the colon-grouped form of a colon-free digest recovers the digest. -/
theorem stripFingerprint_colonize (x : String) (hx : ':' ∉ x.data) :
    stripFingerprint (colonize x) = x := by
  apply String.ext
  rw [stripFingerprint_data]
  show removeColonsL (trimPreL "SHA256:".data (trimPreL "MD5:".data (colonifyL x.data))) = _
  rw [trimPreL_of_not "MD5:".data (colonifyL x.data)
      (not_isPre_colonify "MD5:".data x.data '5' rfl (by decide)),
    trimPreL_of_not "SHA256:".data (colonifyL x.data)
      (not_isPre_colonify "SHA256:".data x.data 'A' rfl (by decide)),
    removeColonsL_colonify, removeColonsL_of_no_colon _ hx]

/-- Normalizing an `MD5:`-prefixed form strips the tag and the colons, provided the
remainder does not itself start with the `SHA256:` tag. -/
theorem stripFingerprint_md5 (x : String) (hx : isPre "SHA256:".data x.data = false) :
    stripFingerprint ("MD5:" ++ x) = removeColons x := by
  apply String.ext
  rw [stripFingerprint_data, String.data_append, trimPreL_append,
    trimPreL_of_not "SHA256:".data x.data hx]
  rfl

/-- Normalizing a `SHA256:`-prefixed form strips the tag and the colons. -/
theorem stripFingerprint_sha256 (x : String) :
    stripFingerprint ("SHA256:" ++ x) = removeColons x := by
  apply String.ext
  rw [stripFingerprint_data, String.data_append]
  rw [trimPreL_of_not "MD5:".data ("SHA256:".data ++ x.data)
      (not_isPre_of_get? "MD5:".data ("SHA256:".data ++ x.data) 0 'M' 'S' rfl rfl (by decide)),
    trimPreL_append]
  rfl

/-- A last-match-wins selection loop, characterized: the fold that overwrites its
accumulator on every hit returns the last element of the filtered list. -/
theorem foldl_select {α : Type} (p : α → Bool) : ∀ (l : List α) (acc : Option α),
    l.foldl (fun a k => if p k then some k else a) acc =
      match (l.filter p).getLast? with
      | some k => some k
      | none => acc
  | [], _ => rfl
  | k :: ks, acc => by
    rw [List.foldl_cons, List.filter_cons]
    by_cases hp : p k
    · rw [if_pos hp, if_pos hp, foldl_select p ks (some k), List.getLast?_cons]
      rcases h : (ks.filter p).getLast? with _ | j <;> simp [h]
    · rw [if_neg hp, if_neg (by simpa using hp), foldl_select p ks acc]

/-- `MatchKey`, characterized on a successful key listing: normalize the target,
then return the last matching candidate, or the key-not-found error. -/
theorem MatchKey_eq (md5f shaf : List Nat → List Nat) (ag : Agent) (f : String)
    (keys : List PublicKey) (h : ag.listResult = .ok keys) :
    MatchKey md5f shaf ag f =
      match (keys.filter (candMatches md5f shaf (stripFingerprint f))).getLast? with
      | some k => .ok k
      | none => .error ("No key in the SSH Agent matches fingerprint: " ++ f) := by
  have hfun : (fun (acc : Option PublicKey) key =>
      let finalizedMD5 := hexEncode (md5f key.marshal)
      let finalizedSHA256 := base64RawStd (shaf key.marshal)
      if (stripFingerprint f == finalizedMD5 || stripFingerprint f == finalizedSHA256)
      then some key else acc) =
      (fun acc k => if candMatches md5f shaf (stripFingerprint f) k then some k else acc) := rfl
  unfold MatchKey
  rw [h]
  show (match keys.foldl (fun acc key =>
      let finalizedMD5 := hexEncode (md5f key.marshal)
      let finalizedSHA256 := base64RawStd (shaf key.marshal)
      if (stripFingerprint f == finalizedMD5 || stripFingerprint f == finalizedSHA256)
      then some key else acc) none with
    | none => Except.error ("No key in the SSH Agent matches fingerprint: " ++ f)
    | some k => Except.ok k) = _
  rw [hfun, foldl_select]
  rcases (keys.filter (candMatches md5f shaf (stripFingerprint f))).getLast? with _ | k <;> rfl

/-- The selected candidate of `MatchKey`, as an `Option`: the last match in list order. -/
theorem MatchKey_toOption (md5f shaf : List Nat → List Nat) (ag : Agent) (f : String)
    (keys : List PublicKey) (h : ag.listResult = .ok keys) :
    (MatchKey md5f shaf ag f).toOption =
      (keys.filter (candMatches md5f shaf (stripFingerprint f))).getLast? := by
  rw [MatchKey_eq md5f shaf ag f keys h]
  rcases (keys.filter (candMatches md5f shaf (stripFingerprint f))).getLast? with _ | k <;> rfl

/-- The witness of a `getLast?` hit is a member of the list. -/
theorem mem_of_getLastEq {α : Type} : ∀ (l : List α) (a : α), l.getLast? = some a → a ∈ l
  | [], _, h => by cases h
  | b :: t, a, h => by
    rw [List.getLast?_cons] at h
    rcases ht : t.getLast? with _ | c
    · rw [ht] at h
      simp only [Option.getD_none, Option.some.injEq] at h
      exact h ▸ List.mem_cons_self b t
    · rw [ht] at h
      simp only [Option.getD_some, Option.some.injEq] at h
      exact List.mem_cons_of_mem b (h ▸ mem_of_getLastEq t c ht)

/-- Deleting colons from a colon-free digest string is the identity, on strings. -/
theorem removeColons_eq_self (x : String) (hx : ':' ∉ x.data) : removeColons x = x :=
  String.ext (removeColonsL_of_no_colon x.data hx)

/-- Deleting colons undoes colon-grouping, on strings. -/
theorem removeColons_colonize (x : String) : removeColons (colonize x) = removeColons x :=
  String.ext (removeColonsL_colonify x.data)

end Lemmas

/-- C1: for every signer and date string, a successful `Sign d` requested a signature
over exactly `"date: " + d`, and the returned header value is exactly
`keyId="<keyIdentifier>",algorithm="<algorithmLabel>",headers="date",signature="<signatureText>"`
with the signer's stored key identifier and the label and text obtained by
normalizing (§4.3) that call's agent signature. -/
theorem c1_sign_header_structure (s : SSHAgentSigner) (d h : String)
    (hok : s.Sign d = .ok h) :
    ∃ sig t a, s.agent.signFn s.key ("date: " ++ d) = .ok sig ∧
      NormalizeSpec sig = .ok (t, a) ∧
      h = authorizationHeaderFormat s.keyIdentifier a "date" t := by
  unfold SSHAgentSigner.Sign at hok
  split at hok
  · cases hok
  rename_i sig hsig
  split at hok
  · cases hok
  rename_i fam hfmt
  split at hok
  · rename_i hrsa
    simp only [newRSASignature] at hok
    refine ⟨sig, base64Std sig.blob, "rsa-sha256", hsig, ?_, ?_⟩
    · simp [NormalizeSpec, hfmt, hrsa, newRSASignature]
    · exact (Except.ok.inj hok).symm
  split at hok
  · rename_i hrsa hec
    split at hok
    · cases hok
    rename_i a hdec
    refine ⟨sig, a.text, a.signatureType, hsig, ?_, (Except.ok.inj hok).symm⟩
    simp [NormalizeSpec, hfmt, hrsa, hec, hdec]
  · cases hok

/-- Concrete key used by the Sign-pipeline witnesses. -/
def W1key : PublicKey := ⟨[1]⟩

/-- Concrete deterministic agent whose signature reply is an RSA-format blob. -/
def W1agent : Agent := ⟨.ok [W1key], fun _ _ => .ok ⟨"ssh-rsa", [1]⟩⟩

/-- Concrete ready signer over `W1agent`. -/
def W1 : SSHAgentSigner :=
  { formattedKeyFingerprint := "FP", keyFingerprint := "f", algorithm := "rsa-sha256",
    accountName := "acct", keyIdentifier := "/acct/keys/FP", agent := W1agent, key := W1key }

theorem c1_witness :
    W1.Sign "X" = .ok
      "keyId=\"/acct/keys/FP\",algorithm=\"rsa-sha256\",headers=\"date\",signature=\"AQ==\"" ∧
    (∃ sig t a, W1.agent.signFn W1.key ("date: " ++ "X") = .ok sig ∧
      NormalizeSpec sig = .ok (t, a) ∧
      "keyId=\"/acct/keys/FP\",algorithm=\"rsa-sha256\",headers=\"date\",signature=\"AQ==\"" =
        authorizationHeaderFormat W1.keyIdentifier a "date" t) :=
  ⟨rfl, c1_sign_header_structure W1 "X" _ rfl⟩

/-- C8: `Sign` and `SignRaw` share one signing-plus-normalization pipeline: with the
deterministic modelled agent, a successful `Sign d` embeds in its header exactly the
`(text, algorithmLabel)` pair that `SignRaw ("date: " + d)` returns. -/
theorem c8_sign_signRaw_same_pipeline (s : SSHAgentSigner) (d h : String)
    (hok : s.Sign d = .ok h) :
    ∃ t a, s.SignRaw ("date: " ++ d) = .ok (t, a) ∧
      h = authorizationHeaderFormat s.keyIdentifier a "date" t := by
  unfold SSHAgentSigner.Sign at hok
  unfold SSHAgentSigner.SignRaw
  split at hok
  · cases hok
  rename_i sig hsig
  split at hok
  · cases hok
  rename_i fam hfmt
  split at hok
  · rename_i hrsa
    rw [if_pos hrsa]
    simp only [newRSASignature] at hok ⊢
    exact ⟨base64Std sig.blob, "rsa-sha256", rfl, (Except.ok.inj hok).symm⟩
  split at hok
  · rename_i hrsa hec
    rw [if_neg hrsa, if_pos hec]
    split at hok
    · cases hok
    rename_i a hdec
    exact ⟨a.text, a.signatureType, rfl, (Except.ok.inj hok).symm⟩
  · cases hok

theorem c8_witness :
    W1.Sign "Y" = .ok
      "keyId=\"/acct/keys/FP\",algorithm=\"rsa-sha256\",headers=\"date\",signature=\"AQ==\"" ∧
    (∃ t a, W1.SignRaw ("date: " ++ "Y") = .ok (t, a) ∧
      "keyId=\"/acct/keys/FP\",algorithm=\"rsa-sha256\",headers=\"date\",signature=\"AQ==\"" =
        authorizationHeaderFormat W1.keyIdentifier a "date" t) :=
  ⟨rfl, c8_sign_signRaw_same_pipeline W1 "Y" _ rfl⟩

/-- Concrete signer whose stored default algorithm label differs from what its agent's
replies yield at signing time. -/
def W10 : SSHAgentSigner :=
  { formattedKeyFingerprint := "FP", keyFingerprint := "f", algorithm := "ecdsa-sha256",
    accountName := "acct", keyIdentifier := "/acct/keys/FP", agent := W1agent, key := W1key }

/-- C10: the header `Sign` produces does not depend on the signer's stored default
algorithm field — two states differing only there sign identically — and the label in
a produced header can differ from `DefaultAlgorithm()` when the agent's reply format
differs from the construction-time probe's. -/
theorem c10_sign_independent_of_stored_algorithm :
    (∀ (s : SSHAgentSigner) (a d : String),
      SSHAgentSigner.Sign { s with algorithm := a } d = s.Sign d) ∧
    (∃ (s : SSHAgentSigner) (d t a : String),
      s.SignRaw ("date: " ++ d) = .ok (t, a) ∧
      s.Sign d = .ok (authorizationHeaderFormat s.keyIdentifier a "date" t) ∧
      a ≠ s.DefaultAlgorithm) :=
  ⟨fun _ _ _ => rfl,
   ⟨W10, "D", "AQ==", "rsa-sha256", rfl, rfl, by decide⟩⟩

/-- C4: when the agent's reply carries a format tag whose key-type family is neither
`rsa` nor `ecdsa` (e.g. `ssh-ed25519`), both `Sign` and `SignRaw` return the
unsupported-algorithm error reporting the original format tag — never a header or
signature value. -/
theorem c4_unsupported_algorithm_error (s : SSHAgentSigner) :
    (∀ d sig fam, s.agent.signFn s.key ("date: " ++ d) = .ok sig →
      keyFormatToKeyType sig.format = .ok fam → fam ≠ "rsa" → fam ≠ "ecdsa" →
      s.Sign d = .error ("Unsupported algorithm from SSH agent: " ++ sig.format)) ∧
    (∀ p sig fam, s.agent.signFn s.key p = .ok sig →
      keyFormatToKeyType sig.format = .ok fam → fam ≠ "rsa" → fam ≠ "ecdsa" →
      s.SignRaw p = .error ("Unsupported algorithm from SSH agent: " ++ sig.format)) := by
  constructor
  · intro d sig fam hsig hfmt hrsa hec
    unfold SSHAgentSigner.Sign
    simp only [hsig, hfmt]
    rw [if_neg (by simpa using hrsa), if_neg (by simpa using hec)]
  · intro p sig fam hsig hfmt hrsa hec
    unfold SSHAgentSigner.SignRaw
    simp only [hsig, hfmt]
    rw [if_neg (by simpa using hrsa), if_neg (by simpa using hec)]

/-- Concrete agent whose signature replies carry the `ssh-ed25519` format tag. -/
def W4agent : Agent := ⟨.ok [W1key], fun _ _ => .ok ⟨"ssh-ed25519", [1, 2]⟩⟩

/-- Concrete signer over `W4agent`. -/
def W4 : SSHAgentSigner :=
  { formattedKeyFingerprint := "FP", keyFingerprint := "f", algorithm := "rsa-sha256",
    accountName := "acct", keyIdentifier := "/acct/keys/FP", agent := W4agent, key := W1key }

theorem c4_witness :
    W4.agent.signFn W4.key ("date: " ++ "D") = .ok ⟨"ssh-ed25519", [1, 2]⟩ ∧
    keyFormatToKeyType "ssh-ed25519" = .ok "ed25519" ∧
    "ed25519" ≠ "rsa" ∧ "ed25519" ≠ "ecdsa" ∧
    W4.Sign "D" = .error ("Unsupported algorithm from SSH agent: " ++ "ssh-ed25519") ∧
    W4.SignRaw "P" = .error ("Unsupported algorithm from SSH agent: " ++ "ssh-ed25519") :=
  ⟨rfl, rfl, by decide, by decide,
   (c4_unsupported_algorithm_error W4).1 "D" ⟨"ssh-ed25519", [1, 2]⟩ "ed25519" rfl rfl
     (by decide) (by decide),
   (c4_unsupported_algorithm_error W4).2 "P" ⟨"ssh-ed25519", [1, 2]⟩ "ed25519" rfl rfl
     (by decide) (by decide)⟩

/-- C6: with the environment setting absent, `NewSSHAgentSigner` fails with the
configuration error, and its outcome is the same whatever the dial / agent collaborator
would have done — no network activity influences the result. -/
theorem c6_unset_env_no_network (dial1 dial2 : String → Except String Agent)
    (md5f shaf : List Nat → List Nat) (f a : String) :
    NewSSHAgentSigner none dial1 md5f shaf f a = .error ErrUnsetEnvVar ∧
    NewSSHAgentSigner none dial1 md5f shaf f a = NewSSHAgentSigner none dial2 md5f shaf f a :=
  ⟨rfl, rfl⟩

/-- C7: `NewSSHAgentSigner` is atomic — a returned signer is fully initialized (its
account, fingerprint and composed key identifier are set) and its construction-time
probe succeeded: the signer can sign the probe string, and its stored algorithm is
exactly the label that probe yields. A failed probe makes the whole construction
return an error instead (the only other possible outcome of the `Except`). -/
theorem c7_construction_atomic (env : Option String) (dial : String → Except String Agent)
    (md5f shaf : List Nat → List Nat) (f a : String) (signer : SSHAgentSigner)
    (hok : NewSSHAgentSigner env dial md5f shaf f a = .ok signer) :
    (∃ text, signer.SignRaw "HelloWorld" = .ok (text, signer.algorithm)) ∧
    signer.accountName = a ∧ signer.keyFingerprint = f ∧
    signer.keyIdentifier = "/" ++ a ++ "/keys/" ++ signer.formattedKeyFingerprint := by
  unfold NewSSHAgentSigner at hok
  split at hok
  · cases hok
  rename_i addr
  split at hok
  · cases hok
  rename_i ag hdial
  split at hok
  · cases hok
  rename_i k hmatch
  dsimp only at hok
  split at hok
  · cases hok
  rename_i pr t alg hsr
  obtain rfl := (Except.ok.inj hok)
  exact ⟨⟨t, hsr⟩, rfl, rfl, rfl⟩

/-- Concrete agent for the construction witnesses. -/
def W7agent : Agent := ⟨.ok [W1key], fun _ _ => .ok ⟨"ssh-rsa", [2]⟩⟩

/-- Concrete dial collaborator returning `W7agent`. -/
def W7dial : String → Except String Agent := fun _ => .ok W7agent

/-- Trivial digest core used by the construction witnesses. -/
def md5zero : List Nat → List Nat := fun _ => []

/-- Trivial digest core used by the construction witnesses. -/
def shazero : List Nat → List Nat := fun _ => []

/-- The signer value the witness construction produces. -/
def W7 : SSHAgentSigner :=
  { formattedKeyFingerprint := "SHA256:", keyFingerprint := "", algorithm := "rsa-sha256",
    accountName := "acct", keyIdentifier := "/acct/keys/SHA256:", agent := W7agent, key := W1key }

theorem c7_witness :
    NewSSHAgentSigner (some "sock") W7dial md5zero shazero "" "acct" = .ok W7 ∧
    ((∃ text, W7.SignRaw "HelloWorld" = .ok (text, W7.algorithm)) ∧
     W7.accountName = "acct" ∧ W7.keyFingerprint = "" ∧
     W7.keyIdentifier = "/" ++ "acct" ++ "/keys/" ++ W7.formattedKeyFingerprint) :=
  ⟨rfl, c7_construction_atomic (some "sock") W7dial md5zero shazero "" "acct" W7 rfl⟩

/-- Every operation's state-passing embedding hands the receiver back unchanged. -/
theorem signSt_state (s : SSHAgentSigner) (d : String) : (s.SignSt d).2 = s := by
  unfold SSHAgentSigner.SignSt
  repeat' split
  all_goals rfl

/-- `SignRawSt` hands the receiver back unchanged. -/
theorem signRawSt_state (s : SSHAgentSigner) (p : String) : (s.SignRawSt p).2 = s := by
  unfold SSHAgentSigner.SignRawSt
  repeat' split
  all_goals rfl

/-- C9: a successfully constructed signer's `agent` and `key` are the values resolved
at construction (non-null by construction: the dialed agent and the matched key), and
no operation mutates the signer: each method's state-passing embedding returns the
receiver with every field unchanged. -/
theorem c9_signer_immutable (env : Option String) (dial : String → Except String Agent)
    (md5f shaf : List Nat → List Nat) (f a : String) (signer : SSHAgentSigner)
    (hok : NewSSHAgentSigner env dial md5f shaf f a = .ok signer) :
    (∃ addr ag k, env = some addr ∧ dial addr = .ok ag ∧ signer.agent = ag ∧
      MatchKey md5f shaf ag f = .ok k ∧ signer.key = k) ∧
    (∀ d, (signer.SignSt d).2 = signer) ∧
    (∀ p, (signer.SignRawSt p).2 = signer) ∧
    signer.KeyFingerprintSt.2 = signer ∧
    signer.DefaultAlgorithmSt.2 = signer := by
  refine ⟨?_, fun d => signSt_state signer d, fun p => signRawSt_state signer p, rfl, rfl⟩
  unfold NewSSHAgentSigner at hok
  split at hok
  · cases hok
  rename_i addr
  split at hok
  · cases hok
  rename_i ag hdial
  split at hok
  · cases hok
  rename_i k hmatch
  dsimp only at hok
  split at hok
  · cases hok
  rename_i pr t alg hsr
  obtain rfl := (Except.ok.inj hok)
  exact ⟨addr, ag, k, rfl, hdial, rfl, hmatch, rfl⟩

/-- C2: for any pair of supported input forms denoting the same key — its bare
lowercase-hex MD5 digest, the colon-grouped or `MD5:`-prefixed variants, its unpadded
base64 SHA256 digest, and the colon-grouped or `SHA256:`-prefixed variants — `MatchKey`
selects the same candidate. The hypothesis `hsame` is what "denoting the same key"
means on a given list: the two bare digests match exactly the same candidates there. -/
theorem c2_matchKey_form_insensitive (md5f shaf : List Nat → List Nat) (ag : Agent)
    (keys : List PublicKey) (K : PublicKey) (hlist : ag.listResult = .ok keys)
    (hsame : ∀ k ∈ keys,
      candMatches md5f shaf (hexEncode (md5f K.marshal)) k =
      candMatches md5f shaf (base64RawStd (shaf K.marshal)) k)
    (f1 f2 : String)
    (h1 : f1 ∈ fingerprintForms (hexEncode (md5f K.marshal)) (base64RawStd (shaf K.marshal)))
    (h2 : f2 ∈ fingerprintForms (hexEncode (md5f K.marshal)) (base64RawStd (shaf K.marshal))) :
    (MatchKey md5f shaf ag f1).toOption = (MatchKey md5f shaf ag f2).toOption := by
  set m := hexEncode (md5f K.marshal) with hm
  set sB := base64RawStd (shaf K.marshal) with hsB
  have hm_nc : ':' ∉ m.data := hexChars_no_colon (md5f K.marshal)
  have hs_nc : ':' ∉ sB.data := base64Core_no_colon (shaf K.marshal)
  have hm_sha : isPre "SHA256:".data m.data = false :=
    not_isPre_of_colon "SHA256:".data m.data 6 rfl hm_nc
  have hstrip : ∀ f ∈ fingerprintForms m sB,
      stripFingerprint f = m ∨ stripFingerprint f = sB := by
    intro f hf
    simp only [fingerprintForms, List.mem_cons, List.not_mem_nil, or_false] at hf
    rcases hf with rfl | rfl | rfl | rfl | rfl | rfl | rfl | rfl
    · exact Or.inl (stripFingerprint_colonFree m hm_nc)
    · exact Or.inl (stripFingerprint_colonize m hm_nc)
    · exact Or.inl ((stripFingerprint_md5 m hm_sha).trans (removeColons_eq_self m hm_nc))
    · refine Or.inl ((stripFingerprint_md5 (colonize m) ?_).trans
        ((removeColons_colonize m).trans (removeColons_eq_self m hm_nc)))
      exact not_isPre_colonify "SHA256:".data m.data 'A' rfl (by decide)
    · exact Or.inr (stripFingerprint_colonFree sB hs_nc)
    · exact Or.inr (stripFingerprint_colonize sB hs_nc)
    · exact Or.inr ((stripFingerprint_sha256 sB).trans (removeColons_eq_self sB hs_nc))
    · exact Or.inr ((stripFingerprint_sha256 (colonize sB)).trans
        ((removeColons_colonize sB).trans (removeColons_eq_self sB hs_nc)))
  have hfilter : ∀ t1 t2 : String, (t1 = m ∨ t1 = sB) → (t2 = m ∨ t2 = sB) →
      keys.filter (candMatches md5f shaf t1) = keys.filter (candMatches md5f shaf t2) := by
    rintro t1 t2 (rfl | rfl) (rfl | rfl)
    · rfl
    · exact List.filter_congr hsame
    · exact (List.filter_congr hsame).symm
    · rfl
  rw [MatchKey_toOption md5f shaf ag f1 keys hlist,
    MatchKey_toOption md5f shaf ag f2 keys hlist,
    hfilter (stripFingerprint f1) (stripFingerprint f2) (hstrip f1 h1) (hstrip f2 h2)]

/-- Digest core returning the byte 0xab, so the MD5-hex rendering is `"ab"`. -/
def md5W : List Nat → List Nat := fun _ => [171]

/-- Digest core returning bytes [0, 1, 2], so the SHA256-base64 rendering is `"AAEC"`. -/
def shaW : List Nat → List Nat := fun _ => [0, 1, 2]

/-- Concrete key for the form-insensitivity witness. -/
def KW : PublicKey := ⟨[1]⟩

/-- Concrete agent listing exactly `KW`. -/
def W2agent : Agent := ⟨.ok [KW], fun _ _ => .error "e"⟩

theorem c2_witness :
    (W2agent.listResult = .ok [KW]) ∧
    (∀ k ∈ [KW], candMatches md5W shaW (hexEncode (md5W KW.marshal)) k =
      candMatches md5W shaW (base64RawStd (shaW KW.marshal)) k) ∧
    "ab" ∈ fingerprintForms (hexEncode (md5W KW.marshal)) (base64RawStd (shaW KW.marshal)) ∧
    "SHA256:AA:EC" ∈
      fingerprintForms (hexEncode (md5W KW.marshal)) (base64RawStd (shaW KW.marshal)) ∧
    (MatchKey md5W shaW W2agent "ab").toOption =
      (MatchKey md5W shaW W2agent "SHA256:AA:EC").toOption :=
  ⟨rfl, by decide, by decide, by decide,
   c2_matchKey_form_insensitive md5W shaW W2agent [KW] KW rfl (by decide)
     "ab" "SHA256:AA:EC" (by decide) (by decide)⟩

/-- C3: on a successful listing, `MatchKey` returns the key-not-found error exactly
when no candidate's MD5-lowercase-hex or SHA256-unpadded-base64 digest of its wire
encoding equals the normalized target fingerprint — covering the empty list and a
non-empty non-matching list alike. -/
theorem c3_keyNotFound_iff (md5f shaf : List Nat → List Nat) (ag : Agent)
    (keys : List PublicKey) (f : String) (hlist : ag.listResult = .ok keys) :
    MatchKey md5f shaf ag f =
        .error ("No key in the SSH Agent matches fingerprint: " ++ f) ↔
      ∀ k ∈ keys, hexEncode (md5f k.marshal) ≠ stripFingerprint f ∧
        base64RawStd (shaf k.marshal) ≠ stripFingerprint f := by
  rw [MatchKey_eq md5f shaf ag f keys hlist]
  rcases h : (keys.filter (candMatches md5f shaf (stripFingerprint f))).getLast? with _ | k
  · rw [List.getLast?_eq_none_iff, List.filter_eq_nil_iff] at h
    constructor
    · intro _ k hk
      have hnm := h k hk
      rw [candMatches] at hnm
      simp only [Bool.or_eq_true, beq_iff_eq, not_or] at hnm
      exact ⟨fun he => hnm.1 he.symm, fun he => hnm.2 he.symm⟩
    · intro _
      rfl
  · constructor
    · intro hcontra
      cases hcontra
    · intro hall
      have hk := mem_of_getLastEq _ _ h
      rw [List.mem_filter, candMatches, Bool.or_eq_true, beq_iff_eq, beq_iff_eq] at hk
      have hne := hall k hk.1
      rcases hk.2 with he | he
      · exact absurd he.symm hne.1
      · exact absurd he.symm hne.2

/-- Concrete agent holding no keys. -/
def W3agent : Agent := ⟨.ok [], fun _ _ => .error "e"⟩

theorem c3_witness :
    (W3agent.listResult = .ok []) ∧
    MatchKey md5zero shazero W3agent "zz" =
      .error ("No key in the SSH Agent matches fingerprint: " ++ "zz") :=
  ⟨rfl, (c3_keyNotFound_iff md5zero shazero W3agent [] "zz" rfl).mpr (by simp)⟩

/-- C5: when several candidates match the normalized fingerprint, `MatchKey` returns
the last matching candidate in list order. -/
theorem c5_last_match_wins (md5f shaf : List Nat → List Nat) (ag : Agent)
    (keys : List PublicKey) (f : String) (k : PublicKey)
    (hlist : ag.listResult = .ok keys)
    (_hmulti : 1 < (keys.filter (candMatches md5f shaf (stripFingerprint f))).length)
    (hlast : (keys.filter (candMatches md5f shaf (stripFingerprint f))).getLast? = some k) :
    MatchKey md5f shaf ag f = .ok k := by
  rw [MatchKey_eq md5f shaf ag f keys hlist, hlast]

/-- Concrete agent holding two keys that both match the trivial digest cores. -/
def W5agent : Agent := ⟨.ok [⟨[1]⟩, ⟨[2]⟩], fun _ _ => .error "e"⟩

theorem c5_witness :
    (W5agent.listResult = .ok [⟨[1]⟩, ⟨[2]⟩]) ∧
    1 < (([⟨[1]⟩, ⟨[2]⟩] : List PublicKey).filter
      (candMatches md5zero shazero (stripFingerprint ""))).length ∧
    (([⟨[1]⟩, ⟨[2]⟩] : List PublicKey).filter
      (candMatches md5zero shazero (stripFingerprint ""))).getLast? = some ⟨[2]⟩ ∧
    MatchKey md5zero shazero W5agent "" = .ok ⟨[2]⟩ :=
  ⟨rfl, by decide, by decide,
   c5_last_match_wins md5zero shazero W5agent [⟨[1]⟩, ⟨[2]⟩] "" ⟨[2]⟩ rfl
     (by decide) (by decide)⟩

theorem c9_witness :
    NewSSHAgentSigner (some "sock") W7dial md5zero shazero "" "acct" = .ok W7 ∧
    ((∃ addr ag k, (some "sock" : Option String) = some addr ∧ W7dial addr = .ok ag ∧
        W7.agent = ag ∧ MatchKey md5zero shazero ag "" = .ok k ∧ W7.key = k) ∧
     (∀ d, (W7.SignSt d).2 = W7) ∧
     (∀ p, (W7.SignRawSt p).2 = W7) ∧
     W7.KeyFingerprintSt.2 = W7 ∧
     W7.DefaultAlgorithmSt.2 = W7) :=
  ⟨rfl, c9_signer_immutable (some "sock") W7dial md5zero shazero "" "acct" W7 rfl⟩
